import Mathlib

/-!
# Verification of the kepler block acceptance pipeline (`chain/src/pipe.rs`)
and the block REST handler (`api/src/handlers/blocks_api.rs`)

Shallow embedding: block hashes are `Nat` identifiers carried as a field of
each header, the store batch is an explicit `ChainState` record, the
txhashset MMRs are lists of hashes indexed by height, and every fallible
pipeline function is state-passing (`PRes`), returning the mutated state on
both success and error exactly as the Rust code leaves its `&mut` context.
Cryptographic checks living outside this repository fragment (block body
validation, coinbase maturity, UTXO checks, kernel sums, MMR roots, the
difficulty engine) are oracles in `Env`, matching the spec's treatment of
them as pure verifiers.
-/

set_option maxHeartbeats 4000000

namespace Kepler

/-- Proof-of-work data of a header, reduced to the projections the pipeline
inspects. `to_difficulty` records the value of `pow.to_difficulty(header.height)`,
the only instantiation `pipe.rs` ever uses (line 377). -/
structure Pow where
  is_primary : Bool
  is_secondary : Bool
  edge_bits : Nat
  to_difficulty : Nat
  secondary_scaling : Nat
  deriving DecidableEq

/-- A block header. `hash` models the 32-byte digest `header.hash()` as an
abstract identifier; `total_kernel_offset` is the scalar the body validator
receives from the previous header. -/
structure BlockHeader where
  hash : Nat
  version : Nat
  height : Nat
  prev_hash : Nat
  timestamp : Int
  total_difficulty : Nat
  total_kernel_offset : Nat
  pow : Pow
  deriving DecidableEq

/-- A full block. The body (inputs/outputs/kernels) is only ever consumed by
the external verifiers modelled in `Env`, so the embedding identifies a block
with its header; the oracles receive the whole `Block`. -/
structure Block where
  header : BlockHeader
  deriving DecidableEq

/-- Modelled from the spec: `Tip` is `(last_block_h, prev_block_h, height,
total_difficulty)` (`chain/src/types.rs` is not part of the fragment). -/
structure Tip where
  height : Nat
  last_block_h : Nat
  prev_block_h : Nat
  total_difficulty : Nat
  deriving DecidableEq

/-- Modelled from the spec: `Tip::from_header` builds a tip referencing the
given header. -/
def Tip.from_header (header : BlockHeader) : Tip :=
  { height := header.height
    last_block_h := header.hash
    prev_block_h := header.prev_hash
    total_difficulty := header.total_difficulty }

/-- `BlockSums`: running Pedersen sums `(utxo_sum, kernel_sum)`, abstracted
to identifiers since only equality and storage matter to the pipeline. -/
structure BlockSums where
  utxo_sum : Nat
  kernel_sum : Nat
  deriving DecidableEq

/-- Modelled from the spec: `kepler_store::Error`, with `NotFoundErr` as the
distinguished sub-kind the pipeline uses to classify orphans (§4.1). `Other`
also absorbs the non-termination of an ill-founded store walk, which the
Rust loops would never complete. -/
inductive StoreError where
  | NotFoundErr (msg : String)
  | Other (msg : String)
  deriving DecidableEq

/-- The error kinds of `chain/src/error.rs` that the pipeline fragment can
produce (plus `TxHashSetErr`/`Committed` for failures raised inside the
modelled txhashset and kernel-sum code). -/
inductive ErrorKind where
  | Unfit (msg : String)
  | Orphan
  | OldBlock
  | InvalidBlockVersion (version : Nat)
  | InvalidBlockTime
  | InvalidBlockHeight
  | LowEdgebits
  | InvalidPow
  | DifficultyTooLow
  | WrongTotalDifficulty
  | InvalidScaling
  | InvalidBlockProof (msg : String)
  | ImmatureCoinbase
  | StoreErr (inner : StoreError) (msg : String)
  | TxHashSetErr (msg : String)
  | Committed (msg : String)
  deriving DecidableEq

instance {ε α : Type} [DecidableEq ε] [DecidableEq α] : DecidableEq (Except ε α) :=
  fun x y =>
    match x, y with
    | .ok a, .ok b =>
      if h : a = b then isTrue (by rw [h]) else isFalse (fun hh => by cases hh; exact h rfl)
    | .error a, .error b =>
      if h : a = b then isTrue (by rw [h]) else isFalse (fun hh => by cases hh; exact h rfl)
    | .ok _, .error _ => isFalse (fun hh => by cases hh)
    | .error _, .ok _ => isFalse (fun hh => by cases hh)

/-- Modelled from the spec: the `From<kepler_store::Error>` conversion applied
by `?` in `pipe.rs` wraps a store failure as `StoreErr` (§4.1, §7 taxonomy:
store failures surface as `StoreErr(inner, context)`, never as a consensus
kind). -/
def wrapStore (e : StoreError) : ErrorKind :=
  ErrorKind.StoreErr e "wrapped"

/-- The mutable context a pipeline call owns: the store batch (headers,
block bodies, block sums, the four tips) and the txhashset (the block-chain
MMR `mmr` and the header MMR `header_mmr`, each a list of hashes indexed by
height). Pending batch writes and committed state are not distinguished:
the batch contract (§4.1) makes reads see pending writes, which is the view
every function in `pipe.rs` operates on. -/
structure ChainState where
  headers : List BlockHeader
  blocks : List Nat
  block_sums : List (Nat × BlockSums)
  head : Option Tip
  header_head : Option Tip
  tail : Option Tip
  mmr : List Nat
  header_mmr : List Nat
  deriving DecidableEq

/-- Result of a state-passing pipeline function: Rust mutates `ctx` in place,
so the state survives on the error path too. -/
inductive PRes (α : Type) where
  | ok : α → ChainState → PRes α
  | err : ErrorKind → ChainState → PRes α
  deriving DecidableEq

/-- The state a pipeline call leaves behind. -/
def PRes.state {α : Type} : PRes α → ChainState
  | .ok _ s => s
  | .err _ s => s

/-- The error kind a pipeline call produced, if any. -/
def PRes.errKind {α : Type} : PRes α → Option ErrorKind
  | .ok _ _ => none
  | .err e _ => some e

/-- The external verifiers and consensus parameters of `BlockContext` and the
out-of-fragment crates: `skip_pow` is `ctx.opts.contains(Options::SKIP_POW)`,
`pow_verifier` is the context's verifier, `now` is `Utc::now()`, and the
remaining fields model (from the spec) the pure verifiers of the core and
consensus crates: header version schedule, the difficulty engine
(`next_header_info height prev_hash` returning the expected
`(difficulty, secondary_scaling)`), block body validation against the
previous kernel offset, coinbase maturity and UTXO validity against the
in-extension chain, kernel sums over the previous `BlockSums`, and the
MMR root/size comparison after applying a block. -/
structure Env where
  skip_pow : Bool
  pow_verifier : BlockHeader → Bool
  now : Int
  valid_header_version : Nat → Nat → Bool
  next_header_info : Nat → Nat → Nat × Nat
  block_valid : Block → Nat → Bool
  coinbase_ok : Block → List Nat → Bool
  utxo_ok : Block → List Nat → Bool
  kernel_sums : Block → BlockSums → Option BlockSums
  roots_ok : BlockHeader → List Nat → Bool

/-- Modelled from the spec: `consensus::BLOCK_TIME_SEC` (one block per
minute; the exact constant does not influence any claim). -/
def BLOCK_TIME_SEC : Int := 60

/-- Header lookup by hash over the batch view. -/
def lookupHeader (s : ChainState) (h : Nat) : Option BlockHeader :=
  s.headers.find? (fun hd => hd.hash == h)

/-- Modelled from the spec: `Batch::get_block_header`. -/
def Batch.get_block_header (s : ChainState) (h : Nat) : Except StoreError BlockHeader :=
  match lookupHeader s h with
  | some hd => .ok hd
  | none => .error (.NotFoundErr "header not found")

/-- Modelled from the spec: `Batch::get_previous_header`, a lookup of
`header.prev_hash`. -/
def Batch.get_previous_header (s : ChainState) (header : BlockHeader) :
    Except StoreError BlockHeader :=
  Batch.get_block_header s header.prev_hash

/-- Modelled from the spec: `Batch::block_exists` (an existence probe; reads
of present keys do not fail in the model). -/
def Batch.block_exists (s : ChainState) (h : Nat) : Bool :=
  s.blocks.contains h

/-- Modelled from the spec: `Batch::get_block`, requiring both the stored
body and its header. -/
def Batch.get_block (s : ChainState) (h : Nat) : Except StoreError Block :=
  match lookupHeader s h with
  | some hd =>
    if s.blocks.contains h then .ok { header := hd }
    else .error (.NotFoundErr "block not found")
  | none => .error (.NotFoundErr "block not found")

/-- Modelled from the spec: `Batch::get_block_sums`. -/
def Batch.get_block_sums (s : ChainState) (h : Nat) : Except StoreError BlockSums :=
  match s.block_sums.lookup h with
  | some bs => .ok bs
  | none => .error (.NotFoundErr "block sums not found")

/-- Modelled from the spec: `Batch::head`, failing with `NotFoundErr` when no
head tip is stored. -/
def Batch.head (s : ChainState) : Except StoreError Tip :=
  match s.head with
  | some t => .ok t
  | none => .error (.NotFoundErr "head not found")

/-- Modelled from the spec: `Batch::header_head`. -/
def Batch.header_head (s : ChainState) : Except StoreError Tip :=
  match s.header_head with
  | some t => .ok t
  | none => .error (.NotFoundErr "header head not found")

/-- Modelled from the spec: `Batch::tail`. -/
def Batch.tail (s : ChainState) : Except StoreError Tip :=
  match s.tail with
  | some t => .ok t
  | none => .error (.NotFoundErr "tail not found")

/-- Whether the provided block totals more work than the chain tip
(`pipe.rs` 497-499). -/
def has_more_work (header : BlockHeader) (head : Tip) : Bool :=
  decide (head.total_difficulty < header.total_difficulty)

/-- Officially adds the block to our chain (`pipe.rs` 460-466):
`save_block` plus `save_block_sums` on the batch. -/
def add_block (b : Block) (sums : BlockSums) (s : ChainState) : ChainState :=
  { s with blocks := b.header.hash :: s.blocks
           block_sums := (b.header.hash, sums) :: s.block_sums }

/-- Update the block chain tail (`pipe.rs` 469-476). -/
def update_body_tail (bh : BlockHeader) (s : ChainState) : ChainState :=
  { s with tail := some (Tip.from_header bh) }

/-- Officially adds the block header to our header chain (`pipe.rs` 479-484). -/
def add_block_header (bh : BlockHeader) (s : ChainState) : ChainState :=
  { s with headers := bh :: s.headers }

/-- `update_head` (`pipe.rs` 486-494): `save_body_head` on the batch. -/
def update_head (t : Tip) (s : ChainState) : ChainState :=
  { s with head := some t }

/-- `update_header_head` (`pipe.rs` 514-523): `save_header_head`. -/
def update_header_head (t : Tip) (s : ChainState) : ChainState :=
  { s with header_head := some t }

/-- Modelled from the spec: `Extension::is_on_current_chain` — whether the
header at this height on the chain tracked by the (pre-rewind) block MMR is
this header (§4.2). -/
def is_on_current_chain (s : ChainState) (header : BlockHeader) : Bool :=
  s.mmr[header.height]? == some header.hash

/-- Modelled from the spec: `HeaderExtension::is_on_current_chain` over the
header MMR. -/
def header_is_on_current_chain (s : ChainState) (header : BlockHeader) : Bool :=
  s.header_mmr[header.height]? == some header.hash

/-- Modelled from the spec: `Extension::rewind(to_header)` truncates the
block MMR back to the given header's height. -/
def ext_rewind (header : BlockHeader) (s : ChainState) : ChainState :=
  { s with mmr := s.mmr.take (header.height + 1) }

/-- Modelled from the spec: `HeaderExtension::rewind`. -/
def header_ext_rewind (header : BlockHeader) (s : ChainState) : ChainState :=
  { s with header_mmr := s.header_mmr.take (header.height + 1) }

/-- Modelled from the spec: `HeaderExtension::apply_header` appends the
header to the header MMR. -/
def apply_header (header : BlockHeader) (s : ChainState) : ChainState :=
  { s with header_mmr := s.header_mmr ++ [header.hash] }

/-- Modelled from the spec: the hash at the head of the header extension
(`ext.head().last_block_h`), `0` denoting the empty MMR. -/
def header_ext_head_hash (s : ChainState) : Nat :=
  (s.header_mmr.getLast?).getD 0

/-- Modelled from the spec: `HeaderExtension::validate_root(header)` — the
header MMR state must be consistent with the header's claimed position and
previous root before the header is appended (§4.5). -/
def header_validate_root (header : BlockHeader) (s : ChainState) : Except ErrorKind Unit :=
  if s.header_mmr.length = header.height ∧
      (header.height = 0 ∨ (s.header_mmr.getLast?).getD 0 = header.prev_hash) then
    .ok ()
  else .error (.TxHashSetErr "header root mismatch")

/-- Modelled from the spec: `Extension::validate_header_root(header)` — the
analogous pre-apply consistency check over the block MMR. -/
def validate_header_root (header : BlockHeader) (s : ChainState) : Except ErrorKind Unit :=
  if s.mmr.length = header.height ∧
      (header.height = 0 ∨ (s.mmr.getLast?).getD 0 = header.prev_hash) then
    .ok ()
  else .error (.TxHashSetErr "header root mismatch")

/-- Modelled from the spec: `Extension::apply_block` appends the block to the
block MMR. -/
def ext_apply_block (b : Block) (s : ChainState) : ChainState :=
  { s with mmr := s.mmr ++ [b.header.hash] }

/-- Modelled from the spec: the scoped extension helpers (`extending`,
`header_extending`, `sync_extending` of `txhashset.rs`): establish a save
point, run the body, and commit both MMR mutations and batch writes exactly
when the body succeeds without requesting `force_rollback` (the `Bool` the
body returns); on an error or a forced rollback the state reverts to the
save point (§4.2, §5 failure atomicity). -/
def extending {α : Type} (body : ChainState → PRes (α × Bool)) (s : ChainState) : PRes α :=
  match body s with
  | .err e _ => .err e s
  | .ok (a, rollback) s1 => if rollback then .ok a s else .ok a s1

-- Check if we already know about this block (`pipe.rs` 50-54, 267-301).

/-- `check_known_head` (`pipe.rs` 270-277): fast-reject a header whose hash
is the chain head or its predecessor. -/
def check_known_head (header : BlockHeader) (s : ChainState) : Except ErrorKind Unit :=
  match Batch.head s with
  | .error e => .error (wrapStore e)
  | .ok head =>
    if header.hash = head.last_block_h ∨ header.hash = head.prev_block_h then
      .error (.Unfit "already known in head")
    else .ok ()

/-- `check_known_store` (`pipe.rs` 280-301): a stored block far behind the
head is `OldBlock`, a stored block near the head is `Unfit`. -/
def check_known_store (header : BlockHeader) (s : ChainState) : Except ErrorKind Unit :=
  if Batch.block_exists s header.hash then
    match Batch.head s with
    | .error e => .error (wrapStore e)
    | .ok head =>
      if header.height < head.height - 50 then .error .OldBlock
      else .error (.Unfit "already known in store")
  else .ok ()

/-- `check_known` (`pipe.rs` 50-54). -/
def check_known (header : BlockHeader) (s : ChainState) : Except ErrorKind Unit :=
  match check_known_head header s with
  | .error e => .error e
  | .ok _ => check_known_store header s

/-- `validate_pow_only` (`pipe.rs` 58-71): used to cheaply validate orphans;
note that it does not consult `SKIP_POW`. -/
def validate_pow_only (header : BlockHeader) (env : Env) : Except ErrorKind Unit :=
  if !header.pow.is_primary && !header.pow.is_secondary then
    .error .LowEdgebits
  else if !(env.pow_verifier header) then
    .error .InvalidPow
  else .ok ()

/-- `prev_header_store` (`pipe.rs` 305-314): find the previous header,
mapping the store's `NotFoundErr` to `Orphan`. -/
def prev_header_store (header : BlockHeader) (s : ChainState) : Except ErrorKind BlockHeader :=
  match Batch.get_previous_header s header with
  | .error (StoreError.NotFoundErr _) => .error .Orphan
  | .error e => .error (.StoreErr e "check prev header")
  | .ok prev => .ok prev

/-- `validate_header` (`pipe.rs` 319-406): version, future timestamp, PoW
structure and verifier (unless `SKIP_POW`), previous header, height and
timestamp progression, then the difficulty checks (unless `SKIP_POW`). -/
def validate_header (header : BlockHeader) (env : Env) (s : ChainState) : Except ErrorKind Unit :=
  if !env.valid_header_version header.height header.version then
    .error (.InvalidBlockVersion header.version)
  else if header.timestamp > env.now + 12 * BLOCK_TIME_SEC then
    .error .InvalidBlockTime
  else if !env.skip_pow && (!header.pow.is_primary && !header.pow.is_secondary) then
    .error .LowEdgebits
  else if !env.skip_pow && !(env.pow_verifier header) then
    .error .InvalidPow
  else
    match prev_header_store header s with
    | .error e => .error e
    | .ok prev =>
      if header.height ≠ prev.height + 1 then .error .InvalidBlockHeight
      else if header.timestamp ≤ prev.timestamp then .error .InvalidBlockTime
      else if !env.skip_pow then
        if header.total_difficulty ≤ prev.total_difficulty then .error .DifficultyTooLow
        else
          let target := header.total_difficulty - prev.total_difficulty
          let info := env.next_header_info header.height prev.hash
          if header.pow.to_difficulty < target then .error .DifficultyTooLow
          else if target ≠ info.1 then .error .WrongTotalDifficulty
          else if header.pow.secondary_scaling ≠ info.2 then .error .InvalidScaling
          else .ok ()
      else .ok ()

/-- `validate_block` (`pipe.rs` 408-414): the stateful body validation
against the previous header's kernel offset, failures surfacing as
`InvalidBlockProof`. -/
def validate_block (b : Block) (env : Env) (s : ChainState) : Except ErrorKind Unit :=
  match Batch.get_previous_header s b.header with
  | .error e => .error (wrapStore e)
  | .ok prev =>
    if env.block_valid b prev.total_kernel_offset then .ok ()
    else .error (.InvalidBlockProof "block validation error")

/-- `verify_coinbase_maturity` (`pipe.rs` 417-420) against the in-extension
UTXO view. -/
def verify_coinbase_maturity (b : Block) (env : Env) (s : ChainState) : Except ErrorKind Unit :=
  if env.coinbase_ok b s.mmr then .ok () else .error .ImmatureCoinbase

/-- `validate_utxo` (`pipe.rs` 625-627) against the in-extension UTXO view. -/
def validate_utxo (b : Block) (env : Env) (s : ChainState) : Except ErrorKind Unit :=
  if env.utxo_ok b s.mmr then .ok () else .error (.TxHashSetErr "utxo")

/-- `verify_block_sums` (`pipe.rs` 424-443): read the previous block's sums
and verify the kernel sums with the new block applied. -/
def verify_block_sums (b : Block) (env : Env) (s : ChainState) : Except ErrorKind BlockSums :=
  match Batch.get_block_sums s b.header.prev_hash with
  | .error e => .error (wrapStore e)
  | .ok prev_sums =>
    match env.kernel_sums b prev_sums with
    | some sums => .ok sums
    | none => .error (.Committed "kernel sum mismatch")

/-- `apply_block_to_txhashset` (`pipe.rs` 447-456): validate the header root
pre-apply, append the block, then validate roots and sizes. -/
def apply_block_to_txhashset (b : Block) (env : Env) (s : ChainState) : PRes Unit :=
  match validate_header_root b.header s with
  | .error e => .err e s
  | .ok _ =>
    let s1 := ext_apply_block b s
    if env.roots_ok b.header s1.mmr then .ok () s1
    else .err (.TxHashSetErr "roots mismatch") s1

-- Fork handling (`pipe.rs` 525-623). The backward walks of the source are
-- `while` loops whose termination rests on previous-header heights shrinking;
-- the embedding gives each walk explicit fuel (the caller passes one unit
-- more than the starting height, enough for every store satisfying invariant
-- I1) and reports exhaustion as a store failure the theorems condition away.

/-- The walk of `rewind_and_apply_header_fork` (`pipe.rs` 536-541): step back
from `current`, collecting hashes, while it is off the current header chain
and above height 0; the source pushes and finally reverses, yielding the
earliest-first list. -/
def header_fork_walk (s : ChainState) :
    Nat → BlockHeader → List Nat → Except StoreError (BlockHeader × List Nat)
  | fuel, current, acc =>
    if 0 < current.height ∧ header_is_on_current_chain s current = false then
      match fuel with
      | 0 => .error (.Other "walk did not terminate")
      | fuel' + 1 =>
        match Batch.get_previous_header s current with
        | .error e => .error e
        | .ok prev => header_fork_walk s fuel' prev (acc ++ [current.hash])
    else .ok (current, acc.reverse)

/-- The reapply loop of `rewind_and_apply_header_fork` (`pipe.rs` 550-556). -/
def apply_header_hashes : List Nat → ChainState → PRes Unit
  | [], s => .ok () s
  | h :: rest, s =>
    match Batch.get_block_header s h with
    | .error e => .err (.StoreErr e "getting forked headers") s
    | .ok header => apply_header_hashes rest (apply_header header s)

/-- `rewind_and_apply_header_fork` (`pipe.rs` 526-559). -/
def rewind_and_apply_header_fork (header : BlockHeader) (s : ChainState) : PRes Unit :=
  if header.hash = header_ext_head_hash s then .ok () s
  else
    match header_fork_walk s (header.height + 1) header [] with
    | .error e => .err (wrapStore e) s
    | .ok (forked_header, fork_hashes) =>
      apply_header_hashes fork_hashes (header_ext_rewind forked_header s)

/-- The first walk of `rewind_and_apply_fork` (`pipe.rs` 576-582): find the
point where the header chain diverged from the current chain. -/
def header_head_fork_walk (s : ChainState) :
    Nat → BlockHeader → Except StoreError BlockHeader
  | fuel, current =>
    if 0 < current.height ∧ is_on_current_chain s current = false then
      match fuel with
      | 0 => .error (.Other "walk did not terminate")
      | fuel' + 1 =>
        match Batch.get_previous_header s current with
        | .error e => .error e
        | .ok prev => header_head_fork_walk s fuel' prev
    else .ok current

/-- The second walk of `rewind_and_apply_fork` (`pipe.rs` 587-600): walk back
from `header` collecting hashes while off the current chain or above the
header-chain fork point, then reverse to earliest-first order. -/
def fork_point_walk (s : ChainState) (hff_height : Nat) :
    Nat → BlockHeader → List Nat → Except StoreError (BlockHeader × List Nat)
  | fuel, current, acc =>
    if 0 < current.height ∧
        (is_on_current_chain s current = false ∨ hff_height < current.height) then
      match fuel with
      | 0 => .error (.Other "walk did not terminate")
      | fuel' + 1 =>
        match Batch.get_previous_header s current with
        | .error e => .error e
        | .ok prev => fork_point_walk s hff_height fuel' prev (acc ++ [current.hash])
    else .ok (current, acc.reverse)

/-- The reapply loop of `rewind_and_apply_fork` (`pipe.rs` 606-620):
earliest-first, each forked block is re-verified (coinbase maturity, UTXO,
block sums — whose result line 617 discards) and applied to the MMRs. -/
def apply_fork_blocks (env : Env) : List Nat → ChainState → PRes Unit
  | [], s => .ok () s
  | h :: rest, s =>
    match Batch.get_block s h with
    | .error e => .err (.StoreErr e "getting forked blocks") s
    | .ok fb =>
      match verify_coinbase_maturity fb env s with
      | .error e => .err e s
      | .ok _ =>
        match validate_utxo fb env s with
        | .error e => .err e s
        | .ok _ =>
          match verify_block_sums fb env s with
          | .error e => .err e s
          | .ok _ =>
            match apply_block_to_txhashset fb env s with
            | .err e s1 => .err e s1
            | .ok _ s1 => apply_fork_blocks env rest s1

/-- `rewind_and_apply_fork` (`pipe.rs` 565-623): compute the header-chain
fork point, then the earlier fork point for the provided header, rewind
there and reapply the fork blocks. -/
def rewind_and_apply_fork (header : BlockHeader) (header_head : Tip) (env : Env)
    (s : ChainState) : PRes Unit :=
  match Batch.get_block_header s header_head.last_block_h with
  | .error e => .err (wrapStore e) s
  | .ok start =>
    match header_head_fork_walk s (start.height + 1) start with
    | .error e => .err (wrapStore e) s
    | .ok header_forked_header =>
      match fork_point_walk s header_forked_header.height (header.height + 1) header [] with
      | .error e => .err (wrapStore e) s
      | .ok (forked_header, fork_hashes) =>
        apply_fork_blocks env fork_hashes (ext_rewind forked_header s)

/-- The closure passed to `header_extending` by `process_block_header`
(`pipe.rs` 242-250); the returned `Bool` is the `force_rollback` request. -/
def header_ext_body (prev_header header : BlockHeader) (header_head : Tip)
    (s : ChainState) : PRes (Unit × Bool) :=
  match rewind_and_apply_header_fork prev_header s with
  | .err e s1 => .err e s1
  | .ok _ s1 =>
    match header_validate_root header s1 with
    | .error e => .err e s1
    | .ok _ =>
      .ok ((), !has_more_work header header_head) (apply_header header s1)

/-- `process_block_header` (`pipe.rs` 221-265). -/
def process_block_header (header : BlockHeader) (env : Env) (s : ChainState) : PRes Unit :=
  match Batch.get_previous_header s header with
  | .error e => .err (wrapStore e) s
  | .ok prev_header =>
    match check_known header s with
    | .error _ => .ok () s
    | .ok _ =>
      match Batch.header_head s with
      | .error e => .err (wrapStore e) s
      | .ok header_head =>
        let known_and_stale :=
          match Batch.get_block_header s header.hash with
          | .ok existing => !has_more_work existing header_head
          | .error _ => false
        if known_and_stale then .ok () s
        else
          match extending (header_ext_body prev_header header header_head) s with
          | .err e s1 => .err e s1
          | .ok _ s1 =>
            match validate_header header env s1 with
            | .error e => .err e s1
            | .ok _ =>
              let s2 := add_block_header header s1
              if has_more_work header header_head then
                .ok () (update_header_head (Tip.from_header header) s2)
              else .ok () s2

/-- The closure passed to `extending` by `process_block` (`pipe.rs`
117-149). -/
def block_ext_body (b : Block) (prev : BlockHeader) (header_head : Tip) (env : Env)
    (s : ChainState) : PRes (BlockSums × Bool) :=
  match rewind_and_apply_fork prev header_head env s with
  | .err e s1 => .err e s1
  | .ok _ s1 =>
    match verify_coinbase_maturity b env s1 with
    | .error e => .err e s1
    | .ok _ =>
      match validate_utxo b env s1 with
      | .error e => .err e s1
      | .ok _ =>
        match verify_block_sums b env s1 with
        | .error e => .err e s1
        | .ok block_sums =>
          match apply_block_to_txhashset b env s1 with
          | .err e s2 => .err e s2
          | .ok _ s2 =>
            match Batch.head s2 with
            | .error e => .err (wrapStore e) s2
            | .ok head => .ok (block_sums, !has_more_work b.header head) s2

/-- `process_block` (`pipe.rs` 76-168). -/
def process_block (b : Block) (env : Env) (s : ChainState) : PRes (Option Tip) :=
  match check_known b.header s with
  | .error e => .err e s
  | .ok _ =>
    match Batch.head s with
    | .error e => .err (wrapStore e) s
    | .ok head =>
      match Batch.header_head s with
      | .error e => .err (wrapStore e) s
      | .ok header_head =>
        let is_next := b.header.prev_hash = head.last_block_h
        match prev_header_store b.header s with
        | .error e => .err e s
        | .ok prev =>
          if ¬ is_next ∧ Batch.block_exists s prev.hash = false then
            match validate_pow_only b.header env with
            | .error e => .err e s
            | .ok _ => .err .Orphan s
          else
            match process_block_header b.header env s with
            | .err e s1 => .err e s1
            | .ok _ s1 =>
              match validate_block b env s1 with
              | .error e => .err e s1
              | .ok _ =>
                match extending (block_ext_body b prev header_head env) s1 with
                | .err e s2 => .err e s2
                | .ok block_sums s2 =>
                  let s3 := add_block b block_sums s2
                  let s4 :=
                    match Batch.tail s3 with
                    | .ok _ => s3
                    | .error _ => update_body_tail b.header s3
                  if has_more_work b.header head then
                    .ok (some (Tip.from_header b.header))
                      (update_head (Tip.from_header b.header) s4)
                  else .ok none s4

end Kepler

namespace KeplerApi

/-- The API error kinds the block handler produces
(`api/src/handlers/blocks_api.rs`). -/
inductive ApiError where
  | Argument (msg : String)
  | NotFound
  | Internal (msg : String)
  deriving DecidableEq

/-- The chain as the REST facade sees it: the height index resolving a
height to the hash of the header on the current chain, the set of stored
block hashes, and the blocks on which `BlockPrintable::from_block` (or its
compact sibling) fails, surfacing as `Internal`. -/
structure ApiChain where
  headers_by_height : List (Nat × Nat)
  blocks : List Nat
  printable_fails : List Nat
  deriving DecidableEq

/-- `input.parse::<u64>()`: an optional leading plus sign, then at least one
ASCII digit, and the value must fit in 64 bits. -/
def parseU64 (input : String) : Option Nat :=
  let cs := input.data
  let digits := match cs with
    | '+' :: rest => rest
    | other => other
  if digits ≠ [] ∧ digits.all (fun c => c.isDigit) then
    let v := digits.foldl (fun a c => a * 10 + (c.toNat - 48)) 0
    if v < 2 ^ 64 then some v else none
  else none

/-- An ASCII hexadecimal digit (`[0-9a-fA-F]`). -/
def isHexDigit (c : Char) : Bool :=
  c.isDigit || (97 ≤ c.toNat && c.toNat ≤ 102) || (65 ≤ c.toNat && c.toNat ≤ 70)

/-- `check_block_param` (`blocks_api.rs` 182-190): the unanchored regex
`[0-9a-fA-F]{64}` matches, i.e. the input contains a run of 64 hex digits. -/
def check_block_param (input : String) : Except ApiError Unit :=
  let cs := input.data
  let n := cs.length
  if (List.range (n + 1)).any
      (fun i => decide (i + 64 ≤ n) && ((cs.drop i).take 64).all isHexDigit) then
    .ok ()
  else .error (.Argument "Not a valid hash or height.")

/-- Value of a hex digit. -/
def hexVal (c : Char) : Nat :=
  if c.isDigit then c.toNat - 48
  else if 97 ≤ c.toNat then c.toNat - 87
  else c.toNat - 55

/-- Bytes from an even run of hex digits. -/
def hexPairs : List Char → List Nat
  | a :: b :: rest => (16 * hexVal a + hexVal b) :: hexPairs rest
  | _ => []

/-- Modelled from the spec: `util::from_hex` — strip an optional `0x`, then
decode hex digit pairs, failing on a non-hex digit or odd length. -/
def from_hex (input : String) : Except ApiError (List Nat) :=
  let cs := match input.data with
    | '0' :: 'x' :: rest => rest
    | other => other
  if cs.all isHexDigit ∧ cs.length % 2 = 0 then .ok (hexPairs cs)
  else .error (.Argument "invalid input")

/-- Modelled from the spec: `Hash::from_vec` packs the first 32 bytes
(zero-padded) into a digest, here the big-endian `Nat` value. -/
def hash_from_vec (bytes : List Nat) : Nat :=
  ((bytes.take 32) ++ List.replicate (32 - bytes.length) 0).foldl
    (fun a b => a * 256 + b % 256) 0

/-- `BlockHandler::parse_input` (`blocks_api.rs` 142-153): a parseable
height resolves through the height index (missing height is `NotFound`);
otherwise the input must contain a 64-hex run and decode as a hash. -/
def BlockHandler.parse_input (c : ApiChain) (input : String) : Except ApiError Nat :=
  match parseU64 input with
  | some height =>
    match c.headers_by_height.lookup height with
    | some h => .ok h
    | none => .error .NotFound
  | none =>
    match check_block_param input with
    | .error e => .error e
    | .ok _ =>
      match from_hex input with
      | .error e => .error e
      | .ok bytes => .ok (hash_from_vec bytes)

/-- `BlockHandler::get_block` (`blocks_api.rs` 122-132): a missing block is
`NotFound`, a failing printable conversion is `Internal`. -/
def BlockHandler.get_block (c : ApiChain) (h : Nat) : Except ApiError Unit :=
  if c.blocks.contains h then
    if c.printable_fails.contains h then .error (.Internal "chain error")
    else .ok ()
  else .error .NotFound

/-- `BlockHandler::get_compact_block` (`blocks_api.rs` 134-139). -/
def BlockHandler.get_compact_block (c : ApiChain) (h : Nat) : Except ApiError Unit :=
  BlockHandler.get_block c h

/-- Modelled from the spec: `result_to_response` maps argument errors to 400,
not-found errors to 404 and internal/store errors to 500 (§6); success is
200. -/
def statusOf {α : Type} : Except ApiError α → Nat
  | .ok _ => 200
  | .error (.Argument _) => 400
  | .error .NotFound => 404
  | .error (.Internal _) => 500

/-- The query-parameter loop of `BlockHandler::get` (`blocks_api.rs`
207-227): accumulate the three recognized flags, any other parameter being
an immediate 400. Returns `(compact, include_merkle_proof, include_proof)`. -/
def scanParams : List String → Bool → Bool → Bool → Option (Bool × Bool × Bool)
  | [], compact, imp, ip => some (compact, imp, ip)
  | p :: rest, compact, imp, ip =>
    if p = "compact" then scanParams rest true imp ip
    else if p = "no_merkle_proof" then scanParams rest compact false ip
    else if p = "include_proof" then scanParams rest compact imp true
    else none

/-- `BlockHandler::get` (`blocks_api.rs` 192-229), reduced to the HTTP
status it answers: every `parse_input` error (of any kind) becomes 400;
then the block fetch result goes through `result_to_response`. -/
def BlockHandler.get (c : ApiChain) (input : String) (query : Option (List String)) : Nat :=
  match BlockHandler.parse_input c input with
  | .error _ => 400
  | .ok h =>
    match query with
    | none => statusOf (BlockHandler.get_block c h)
    | some params =>
      match scanParams params false true false with
      | none => 400
      | some (compact, _, _) =>
        if compact then statusOf (BlockHandler.get_compact_block c h)
        else statusOf (BlockHandler.get_block c h)

end KeplerApi

namespace Kepler

/-! ## State-preservation lemmas

The header pipeline mutates only the header side of the state (stored
headers, header MMR, `header_head`); the block extension body mutates only
the block MMR. The lemmas below make those frame conditions available to the
claim theorems. -/

/-- The block-side fields a header operation never touches. -/
def BodySame (s t : ChainState) : Prop :=
  t.blocks = s.blocks ∧ t.block_sums = s.block_sums ∧ t.head = s.head ∧
    t.tail = s.tail ∧ t.mmr = s.mmr

/-- The store fields an extension body never touches. -/
def StoreSame (s t : ChainState) : Prop :=
  t.headers = s.headers ∧ t.blocks = s.blocks ∧ t.block_sums = s.block_sums ∧
    t.head = s.head ∧ t.header_head = s.header_head ∧ t.tail = s.tail

theorem bodySame_self (s : ChainState) : BodySame s s :=
  ⟨rfl, rfl, rfl, rfl, rfl⟩

theorem bodySame_trans {s t u : ChainState} (h1 : BodySame s t) (h2 : BodySame t u) :
    BodySame s u := by
  obtain ⟨a1, b1, c1, d1, e1⟩ := h1
  obtain ⟨a2, b2, c2, d2, e2⟩ := h2
  exact ⟨a2.trans a1, b2.trans b1, c2.trans c1, d2.trans d1, e2.trans e1⟩

theorem storeSame_self (s : ChainState) : StoreSame s s :=
  ⟨rfl, rfl, rfl, rfl, rfl, rfl⟩

theorem storeSame_trans {s t u : ChainState} (h1 : StoreSame s t) (h2 : StoreSame t u) :
    StoreSame s u := by
  obtain ⟨a1, b1, c1, d1, e1, f1⟩ := h1
  obtain ⟨a2, b2, c2, d2, e2, f2⟩ := h2
  exact ⟨a2.trans a1, b2.trans b1, c2.trans c1, d2.trans d1, e2.trans e1, f2.trans f1⟩

theorem bodySame_apply_header (header : BlockHeader) (s : ChainState) :
    BodySame s (apply_header header s) :=
  ⟨rfl, rfl, rfl, rfl, rfl⟩

theorem bodySame_header_ext_rewind (header : BlockHeader) (s : ChainState) :
    BodySame s (header_ext_rewind header s) :=
  ⟨rfl, rfl, rfl, rfl, rfl⟩

theorem bodySame_apply_header_hashes :
    ∀ (l : List Nat) (s : ChainState), BodySame s (apply_header_hashes l s).state := by
  intro l
  induction l with
  | nil => intro s; exact bodySame_self s
  | cons h rest ih =>
    intro s
    unfold apply_header_hashes
    cases hgb : Batch.get_block_header s h with
    | error e => exact bodySame_self s
    | ok header =>
      dsimp only
      exact bodySame_trans (bodySame_apply_header header s) (ih (apply_header header s))

theorem bodySame_rewind_and_apply_header_fork (header : BlockHeader) (s : ChainState) :
    BodySame s (rewind_and_apply_header_fork header s).state := by
  unfold rewind_and_apply_header_fork
  by_cases hh : header.hash = header_ext_head_hash s
  · rw [if_pos hh]
    exact bodySame_self s
  · rw [if_neg hh]
    cases hw : header_fork_walk s (header.height + 1) header [] with
    | error e => exact bodySame_self s
    | ok p =>
      obtain ⟨forked, hashes⟩ := p
      dsimp only
      exact bodySame_trans (bodySame_header_ext_rewind forked s)
        (bodySame_apply_header_hashes hashes (header_ext_rewind forked s))

theorem bodySame_header_ext_body (prev header : BlockHeader) (hh : Tip) (s : ChainState) :
    BodySame s (header_ext_body prev header hh s).state := by
  unfold header_ext_body
  cases hr : rewind_and_apply_header_fork prev s with
  | err e s1 =>
    have h0 := bodySame_rewind_and_apply_header_fork prev s
    rw [hr] at h0
    exact h0
  | ok u s1 =>
    have h1 : BodySame s s1 := by
      have h0 := bodySame_rewind_and_apply_header_fork prev s
      rw [hr] at h0
      exact h0
    dsimp only
    cases hv : header_validate_root header s1 with
    | error e => exact h1
    | ok u =>
      dsimp only [PRes.state]
      exact bodySame_trans h1 (bodySame_apply_header header s1)

/-- An error escaping `extending` always leaves the save point untouched. -/
theorem extending_err_state {α : Type} (body : ChainState → PRes (α × Bool))
    (s s1 : ChainState) (e : ErrorKind) (h : extending body s = .err e s1) : s1 = s := by
  unfold extending at h
  cases hb : body s with
  | err e2 s2 => rw [hb] at h; cases h; rfl
  | ok p s2 =>
    obtain ⟨a, rb⟩ := p
    rw [hb] at h
    cases rb <;> simp_all

theorem bodySame_extending {α : Type} (body : ChainState → PRes (α × Bool))
    (s : ChainState) (h : BodySame s (body s).state) :
    BodySame s (extending body s).state := by
  unfold extending
  cases hb : body s with
  | err e s1 => exact bodySame_self s
  | ok p s1 =>
    obtain ⟨a, rb⟩ := p
    rw [hb] at h
    cases rb
    · simpa using h
    · simpa using bodySame_self s

/-- `process_block_header` never touches the block-side state, on success or
on error: only stored headers, the header MMR and `header_head` change. -/
theorem bodySame_process_block_header (header : BlockHeader) (env : Env) (s : ChainState) :
    BodySame s (process_block_header header env s).state := by
  unfold process_block_header
  cases hp : Batch.get_previous_header s header with
  | error e => exact bodySame_self s
  | ok prev_header =>
    dsimp only
    cases hk : check_known header s with
    | error e => exact bodySame_self s
    | ok u =>
      dsimp only
      cases hhh : Batch.header_head s with
      | error e => exact bodySame_self s
      | ok header_head =>
        dsimp only
        by_cases hks : (match Batch.get_block_header s header.hash with
          | .ok existing => !has_more_work existing header_head
          | .error _ => false) = true
        · rw [if_pos hks]
          exact bodySame_self s
        · rw [if_neg hks]
          cases hx : extending (header_ext_body prev_header header header_head) s with
          | err e s1 =>
            rw [extending_err_state _ _ _ _ hx]
            exact bodySame_self s
          | ok u s1 =>
            have h1 : BodySame s s1 := by
              have h0 := bodySame_extending (header_ext_body prev_header header header_head) s
                (bodySame_header_ext_body prev_header header header_head s)
              rw [hx] at h0
              exact h0
            dsimp only
            cases hv : validate_header header env s1 with
            | error e => exact h1
            | ok u =>
              dsimp only
              by_cases hm : has_more_work header header_head = true
              · rw [if_pos hm]
                exact bodySame_trans h1 ⟨rfl, rfl, rfl, rfl, rfl⟩
              · rw [if_neg hm]
                exact bodySame_trans h1 ⟨rfl, rfl, rfl, rfl, rfl⟩

theorem storeSame_ext_rewind (header : BlockHeader) (s : ChainState) :
    StoreSame s (ext_rewind header s) :=
  ⟨rfl, rfl, rfl, rfl, rfl, rfl⟩

theorem storeSame_ext_apply_block (b : Block) (s : ChainState) :
    StoreSame s (ext_apply_block b s) :=
  ⟨rfl, rfl, rfl, rfl, rfl, rfl⟩

theorem storeSame_apply_block_to_txhashset (b : Block) (env : Env) (s : ChainState) :
    StoreSame s (apply_block_to_txhashset b env s).state := by
  unfold apply_block_to_txhashset
  cases hv : validate_header_root b.header s with
  | error e => exact storeSame_self s
  | ok u =>
    dsimp only
    by_cases hr : env.roots_ok b.header (ext_apply_block b s).mmr = true
    · rw [if_pos hr]
      exact storeSame_ext_apply_block b s
    · rw [if_neg hr]
      exact storeSame_ext_apply_block b s

theorem storeSame_apply_fork_blocks (env : Env) :
    ∀ (l : List Nat) (s : ChainState), StoreSame s (apply_fork_blocks env l s).state := by
  intro l
  induction l with
  | nil => intro s; exact storeSame_self s
  | cons h rest ih =>
    intro s
    unfold apply_fork_blocks
    cases hgb : Batch.get_block s h with
    | error e => exact storeSame_self s
    | ok fb =>
      dsimp only
      cases hcm : verify_coinbase_maturity fb env s with
      | error e => exact storeSame_self s
      | ok u =>
        dsimp only
        cases hu : validate_utxo fb env s with
        | error e => exact storeSame_self s
        | ok u2 =>
          dsimp only
          cases hs : verify_block_sums fb env s with
          | error e => exact storeSame_self s
          | ok sums =>
            dsimp only
            cases hap : apply_block_to_txhashset fb env s with
            | err e s1 =>
              have h0 := storeSame_apply_block_to_txhashset fb env s
              rw [hap] at h0
              exact h0
            | ok u3 s1 =>
              dsimp only
              have h0 : StoreSame s s1 := by
                have h1 := storeSame_apply_block_to_txhashset fb env s
                rw [hap] at h1
                exact h1
              exact storeSame_trans h0 (ih s1)

theorem storeSame_rewind_and_apply_fork (header : BlockHeader) (hh : Tip) (env : Env)
    (s : ChainState) : StoreSame s (rewind_and_apply_fork header hh env s).state := by
  unfold rewind_and_apply_fork
  cases h1 : Batch.get_block_header s hh.last_block_h with
  | error e => exact storeSame_self s
  | ok start =>
    dsimp only
    cases h2 : header_head_fork_walk s (start.height + 1) start with
    | error e => exact storeSame_self s
    | ok hff =>
      dsimp only
      cases h3 : fork_point_walk s hff.height (header.height + 1) header [] with
      | error e => exact storeSame_self s
      | ok p =>
        obtain ⟨forked, hashes⟩ := p
        dsimp only
        exact storeSame_trans (storeSame_ext_rewind forked s)
          (storeSame_apply_fork_blocks env hashes (ext_rewind forked s))

theorem storeSame_block_ext_body (b : Block) (prev : BlockHeader) (hh : Tip) (env : Env)
    (s : ChainState) : StoreSame s (block_ext_body b prev hh env s).state := by
  unfold block_ext_body
  cases h1 : rewind_and_apply_fork prev hh env s with
  | err e s1 =>
    have h0 := storeSame_rewind_and_apply_fork prev hh env s
    rw [h1] at h0
    exact h0
  | ok u s1 =>
    have hs1 : StoreSame s s1 := by
      have h0 := storeSame_rewind_and_apply_fork prev hh env s
      rw [h1] at h0
      exact h0
    dsimp only
    cases h2 : verify_coinbase_maturity b env s1 with
    | error e => exact hs1
    | ok u2 =>
      dsimp only
      cases h3 : validate_utxo b env s1 with
      | error e => exact hs1
      | ok u3 =>
        dsimp only
        cases h4 : verify_block_sums b env s1 with
        | error e => exact hs1
        | ok sums =>
          dsimp only
          cases h5 : apply_block_to_txhashset b env s1 with
          | err e s2 =>
            have h0 := storeSame_apply_block_to_txhashset b env s1
            rw [h5] at h0
            exact storeSame_trans hs1 h0
          | ok u4 s2 =>
            have hs2 : StoreSame s s2 := by
              have h0 := storeSame_apply_block_to_txhashset b env s1
              rw [h5] at h0
              exact storeSame_trans hs1 h0
            dsimp only
            cases h6 : Batch.head s2 with
            | error e => exact hs2
            | ok head => exact hs2

/-- When `extending` commits, the final state is the save point or the body's
final state; with a body that preserves the store fields, so does the commit. -/
theorem storeSame_extending_ok {α : Type} (body : ChainState → PRes (α × Bool))
    (s : ChainState) (hbody : StoreSame s (body s).state) (a : α) (s2 : ChainState)
    (h : extending body s = .ok a s2) : StoreSame s s2 := by
  unfold extending at h
  cases hb : body s with
  | err e s1 => rw [hb] at h; exact PRes.noConfusion h
  | ok p s1 =>
    obtain ⟨a1, rb⟩ := p
    rw [hb] at h
    rw [hb] at hbody
    cases rb
    · simp only [Bool.false_eq_true, if_false] at h
      cases h
      exact hbody
    · simp only [if_true] at h
      cases h
      exact storeSame_self s

/-- `Batch.head` succeeds exactly on a stored head tip. -/
theorem batch_head_ok {s : ChainState} {t : Tip} (h : Batch.head s = .ok t) :
    s.head = some t := by
  unfold Batch.head at h
  cases hs : s.head with
  | none => rw [hs] at h; exact Except.noConfusion h
  | some t0 => rw [hs] at h; cases h; rfl

/-- Any error return of `process_block` leaves the block-side state (stored
bodies, block sums, the block MMR, `head`, `tail`) untouched: the pre-header
checks do not write, the header phase only touches header-side state, and
the scoped extension restores its save point on every error. -/
theorem process_block_err_bodySame (b : Block) (env : Env) (s : ChainState)
    (e : ErrorKind) (s1 : ChainState) (h : process_block b env s = .err e s1) :
    BodySame s s1 := by
  unfold process_block at h
  cases hk : check_known b.header s with
  | error e0 => rw [hk] at h; cases h; exact bodySame_self s
  | ok u =>
    rw [hk] at h
    dsimp only at h
    cases hhd : Batch.head s with
    | error e0 => rw [hhd] at h; cases h; exact bodySame_self s
    | ok head0 =>
      rw [hhd] at h
      dsimp only at h
      cases hhh : Batch.header_head s with
      | error e0 => rw [hhh] at h; cases h; exact bodySame_self s
      | ok hh0 =>
        rw [hhh] at h
        dsimp only at h
        cases hprev : prev_header_store b.header s with
        | error e0 => rw [hprev] at h; cases h; exact bodySame_self s
        | ok prev =>
          rw [hprev] at h
          dsimp only at h
          by_cases horph : ¬ b.header.prev_hash = head0.last_block_h ∧
              Batch.block_exists s prev.hash = false
          · rw [if_pos horph] at h
            cases hpow : validate_pow_only b.header env with
            | error e0 => rw [hpow] at h; cases h; exact bodySame_self s
            | ok u2 => rw [hpow] at h; dsimp only at h; cases h; exact bodySame_self s
          · rw [if_neg horph] at h
            cases hpbh : process_block_header b.header env s with
            | err e0 sh =>
              rw [hpbh] at h
              cases h
              have h0 := bodySame_process_block_header b.header env s
              rw [hpbh] at h0
              exact h0
            | ok u2 sh =>
              rw [hpbh] at h
              dsimp only at h
              have hbsh : BodySame s sh := by
                have h0 := bodySame_process_block_header b.header env s
                rw [hpbh] at h0
                exact h0
              cases hvb : validate_block b env sh with
              | error e0 => rw [hvb] at h; cases h; exact hbsh
              | ok u3 =>
                rw [hvb] at h
                dsimp only at h
                cases hext : extending (block_ext_body b prev hh0 env) sh with
                | err e0 s2 =>
                  rw [hext] at h
                  cases h
                  rw [extending_err_state _ _ _ _ hext]
                  exact hbsh
                | ok bs s2 =>
                  rw [hext] at h
                  dsimp only at h
                  split at h <;> exact PRes.noConfusion h

/-- Shape of a successful `process_block` run: the head tip existed at entry,
the block body is now stored, and the head either advanced to exactly
`Tip.from_header b.header` (when the block has more work than the entry
head) or is unchanged (and the call returned `none`). -/
theorem process_block_ok_shape (b : Block) (env : Env) (s : ChainState)
    (r : Option Tip) (s1 : ChainState) (h : process_block b env s = .ok r s1) :
    ∃ head0, s.head = some head0 ∧
      s1.blocks = b.header.hash :: s.blocks ∧
      ((has_more_work b.header head0 = true ∧ r = some (Tip.from_header b.header) ∧
          s1.head = some (Tip.from_header b.header)) ∨
        (has_more_work b.header head0 = false ∧ r = none ∧ s1.head = s.head)) := by
  unfold process_block at h
  cases hk : check_known b.header s with
  | error e0 => rw [hk] at h; exact PRes.noConfusion h
  | ok u =>
    rw [hk] at h
    dsimp only at h
    cases hhd : Batch.head s with
    | error e0 => rw [hhd] at h; exact PRes.noConfusion h
    | ok head0 =>
      rw [hhd] at h
      dsimp only at h
      cases hhh : Batch.header_head s with
      | error e0 => rw [hhh] at h; exact PRes.noConfusion h
      | ok hh0 =>
        rw [hhh] at h
        dsimp only at h
        cases hprev : prev_header_store b.header s with
        | error e0 => rw [hprev] at h; exact PRes.noConfusion h
        | ok prev =>
          rw [hprev] at h
          dsimp only at h
          by_cases horph : ¬ b.header.prev_hash = head0.last_block_h ∧
              Batch.block_exists s prev.hash = false
          · rw [if_pos horph] at h
            cases hpow : validate_pow_only b.header env with
            | error e0 => rw [hpow] at h; exact PRes.noConfusion h
            | ok u2 => rw [hpow] at h; dsimp only at h; exact PRes.noConfusion h
          · rw [if_neg horph] at h
            cases hpbh : process_block_header b.header env s with
            | err e0 sh => rw [hpbh] at h; exact PRes.noConfusion h
            | ok u2 sh =>
              rw [hpbh] at h
              dsimp only at h
              have hbsh : BodySame s sh := by
                have h0 := bodySame_process_block_header b.header env s
                rw [hpbh] at h0
                exact h0
              cases hvb : validate_block b env sh with
              | error e0 => rw [hvb] at h; exact PRes.noConfusion h
              | ok u3 =>
                rw [hvb] at h
                dsimp only at h
                cases hext : extending (block_ext_body b prev hh0 env) sh with
                | err e0 s2 => rw [hext] at h; exact PRes.noConfusion h
                | ok bs s2 =>
                  rw [hext] at h
                  dsimp only at h
                  have hss2 : StoreSame sh s2 :=
                    storeSame_extending_ok _ sh (storeSame_block_ext_body b prev hh0 env sh) bs s2 hext
                  have hblocks : s2.blocks = s.blocks := hss2.2.1.trans hbsh.1
                  have hhead2 : s2.head = s.head := hss2.2.2.2.1.trans hbsh.2.2.1
                  refine ⟨head0, batch_head_ok hhd, ?_⟩
                  by_cases hmw : has_more_work b.header head0 = true
                  · rw [if_pos hmw] at h
                    cases h
                    constructor
                    · cases htail : Batch.tail (add_block b bs s2) <;>
                        simp [htail, add_block, update_head, update_body_tail, hblocks]
                    · left
                      refine ⟨hmw, rfl, ?_⟩
                      cases htail : Batch.tail (add_block b bs s2) <;>
                        simp [htail, add_block, update_head, update_body_tail]
                  · rw [if_neg hmw] at h
                    cases h
                    constructor
                    · cases htail : Batch.tail (add_block b bs s2) <;>
                        simp [htail, add_block, update_head, update_body_tail, hblocks]
                    · right
                      refine ⟨by simpa using hmw, rfl, ?_⟩
                      cases htail : Batch.tail (add_block b bs s2) <;>
                        simp [htail, add_block, update_head, update_body_tail, hhead2]

/-! ## Concrete fixtures

A one-block chain used by the witnesses and counterexamples: a genesis
header (hash 100) whose block body, sums and tips are stored, and a valid
child block (hash 101) carrying more work. -/

def powPrimary : Pow :=
  { is_primary := true, is_secondary := false, edge_bits := 31,
    to_difficulty := 5, secondary_scaling := 7 }

def powInvalid : Pow :=
  { is_primary := false, is_secondary := false, edge_bits := 4,
    to_difficulty := 0, secondary_scaling := 7 }

def genesisHeader : BlockHeader :=
  { hash := 100, version := 1, height := 0, prev_hash := 0, timestamp := 0,
    total_difficulty := 1, total_kernel_offset := 0, pow := powPrimary }

def blockOneHeader : BlockHeader :=
  { hash := 101, version := 1, height := 1, prev_hash := 100, timestamp := 10,
    total_difficulty := 2, total_kernel_offset := 0, pow := powPrimary }

def blockOne : Block := { header := blockOneHeader }

/-- A header whose previous header (hash 299) is in no store below. -/
def orphanHeader : BlockHeader :=
  { hash := 300, version := 1, height := 5, prev_hash := 299, timestamp := 10,
    total_difficulty := 9, total_kernel_offset := 0, pow := powInvalid }

def stateOne : ChainState :=
  { headers := [genesisHeader], blocks := [100],
    block_sums := [(100, { utxo_sum := 0, kernel_sum := 0 })],
    head := some (Tip.from_header genesisHeader),
    header_head := some (Tip.from_header genesisHeader),
    tail := some (Tip.from_header genesisHeader),
    mmr := [100], header_mmr := [100] }

def envBase : Env :=
  { skip_pow := true, pow_verifier := fun _ => true, now := 1000,
    valid_header_version := fun _ _ => true,
    next_header_info := fun _ _ => (1, 7),
    block_valid := fun _ _ => true,
    coinbase_ok := fun _ _ => true,
    utxo_ok := fun _ _ => true,
    kernel_sums := fun _ _ => some { utxo_sum := 1, kernel_sum := 1 },
    roots_ok := fun _ _ => true }

/-- `envBase` with a failing block-body validator: the block's header is
acceptable but `validate_block` rejects (a bad kernel signature, say). -/
def envBadProof : Env := { envBase with block_valid := fun _ _ => false }

/-! ## C1 — failure atomicity of `process_block` -/

/-- C1 counterexample: `process_block` rejects `blockOne` under a failing
body validator (`InvalidBlockProof`), yet the state after the call differs
from the state before it — processing the block's header already committed
the header extension (header MMR grown, header stored, `header_head`
advanced) before `validate_block` failed, and nothing rolls that back. -/
theorem pipe_rejected_block_can_leave_state_changed :
    (process_block blockOne envBadProof stateOne).errKind =
      some (.InvalidBlockProof "block validation error") ∧
    (process_block blockOne envBadProof stateOne).state ≠ stateOne := by
  decide

/-- C1 (amended): any error return of `process_block` leaves the block-side
persistent state — stored block bodies, block sums, the block MMR, `head`
and the body tail — exactly as it was: the scoped extension restores its
save point on every error path. Header-side state (stored headers, header
MMR, `header_head`) may retain the effects of processing the block's
header. -/
theorem pipe_rejected_block_body_state_unchanged (b : Block) (env : Env)
    (s : ChainState) (e : ErrorKind) (s1 : ChainState)
    (h : process_block b env s = .err e s1) :
    s1.blocks = s.blocks ∧ s1.block_sums = s.block_sums ∧ s1.mmr = s.mmr ∧
      s1.head = s.head ∧ s1.tail = s.tail := by
  obtain ⟨hb, hsums, hhead, htail, hmmr⟩ := process_block_err_bodySame b env s e s1 h
  exact ⟨hb, hsums, hmmr, hhead, htail⟩

theorem pipe_rejected_block_body_state_unchanged_witness :
    (process_block blockOne envBadProof stateOne).state.blocks = stateOne.blocks ∧
    (process_block blockOne envBadProof stateOne).state.block_sums = stateOne.block_sums ∧
    (process_block blockOne envBadProof stateOne).state.mmr = stateOne.mmr ∧
    (process_block blockOne envBadProof stateOne).state.head = stateOne.head ∧
    (process_block blockOne envBadProof stateOne).state.tail = stateOne.tail :=
  pipe_rejected_block_body_state_unchanged blockOne envBadProof stateOne
    (.InvalidBlockProof "block validation error")
    (process_block blockOne envBadProof stateOne).state (by decide)

/-! ## C2 — missing previous header in `process_block_header` -/

/-- C2 counterexample: for a header whose previous header is absent,
`process_block_header` does not return `Orphan`; line 223 of `pipe.rs`
propagates the raw store failure through `?`, which wraps it as
`StoreErr(NotFoundErr ..)` — the `Orphan` mapping of `prev_header_store`
is used by `process_block` and `validate_header` only. -/
theorem pipe_header_missing_prev_not_orphan :
    process_block_header orphanHeader envBase stateOne =
      .err (.StoreErr (.NotFoundErr "header not found") "wrapped") stateOne ∧
    (process_block_header orphanHeader envBase stateOne).errKind ≠ some .Orphan := by
  decide

/-- C2 (amended): for every header whose previous header is not present in
the store, `process_block_header` returns the store's `NotFoundErr` wrapped
as a `StoreErr` (and leaves the state untouched), rather than the `Orphan`
kind. -/
theorem pipe_header_missing_prev_store_err (header : BlockHeader) (env : Env)
    (s : ChainState) (hmiss : lookupHeader s header.prev_hash = none) :
    process_block_header header env s =
      .err (wrapStore (.NotFoundErr "header not found")) s := by
  unfold process_block_header Batch.get_previous_header Batch.get_block_header
  rw [hmiss]

theorem pipe_header_missing_prev_store_err_witness :
    process_block_header orphanHeader envBase stateOne =
      .err (wrapStore (.NotFoundErr "header not found")) stateOne :=
  pipe_header_missing_prev_store_err orphanHeader envBase stateOne (by decide)

/-! ## C3 — scope of the SKIP_POW option -/

/-- A state in which `orphanHeader`'s previous header (hash 299, height 4)
is stored but its block body is not: `process_block` takes the orphan path
and calls `validate_pow_only`. -/
def prevKnownHeader : BlockHeader :=
  { hash := 299, version := 1, height := 4, prev_hash := 298, timestamp := 5,
    total_difficulty := 8, total_kernel_offset := 0, pow := powPrimary }

def stateOrphanPath : ChainState :=
  { stateOne with headers := prevKnownHeader :: stateOne.headers }

/-- C3 counterexample: with `SKIP_POW` set, `process_block` on an orphan
block with a malformed PoW still runs the edge-bits structure check and
fails with `LowEdgebits` — `validate_pow_only` (`pipe.rs` 58-71) never
consults `ctx.opts`, so the orphan path performs PoW checks despite
`SKIP_POW`. -/
theorem pipe_skip_pow_orphan_path_still_checks_pow :
    envBase.skip_pow = true ∧
    process_block { header := orphanHeader } envBase stateOrphanPath =
      .err .LowEdgebits stateOrphanPath := by
  decide

/-- C3 (amended): `SKIP_POW` disables every PoW-related check inside
`validate_header` — its verdict does not depend on the context's
`pow_verifier` at all — but `validate_pow_only` on the orphan path of
`process_block` runs the edge-bits structure check and the verifier
unconditionally. -/
theorem pipe_skip_pow_scope (env : Env) (v : BlockHeader → Bool)
    (header : BlockHeader) (s : ChainState) (hskip : env.skip_pow = true) :
    validate_header header { env with pow_verifier := v } s =
      validate_header header env s ∧
    (header.pow.is_primary = false → header.pow.is_secondary = false →
      validate_pow_only header env = .error .LowEdgebits) ∧
    ((header.pow.is_primary = true ∨ header.pow.is_secondary = true) →
      env.pow_verifier header = false →
      validate_pow_only header env = .error .InvalidPow) := by
  refine ⟨?_, ?_, ?_⟩
  · unfold validate_header
    simp [hskip]
  · intro h1 h2
    unfold validate_pow_only
    simp [h1, h2]
  · intro h1 h2
    unfold validate_pow_only
    rcases h1 with h1 | h1 <;> simp [h1, h2]

theorem pipe_skip_pow_scope_witness :
    validate_header orphanHeader { envBase with pow_verifier := fun _ => false } stateOne =
      validate_header orphanHeader envBase stateOne ∧
    (orphanHeader.pow.is_primary = false → orphanHeader.pow.is_secondary = false →
      validate_pow_only orphanHeader envBase = .error .LowEdgebits) ∧
    ((orphanHeader.pow.is_primary = true ∨ orphanHeader.pow.is_secondary = true) →
      envBase.pow_verifier orphanHeader = false →
      validate_pow_only orphanHeader envBase = .error .InvalidPow) :=
  pipe_skip_pow_scope envBase (fun _ => false) orphanHeader stateOne (by decide)

/-! ## C4 — the orphan detection paths of `process_block` -/

/-- C4 counterexample: a block whose previous *header* is missing is
reported `Orphan` by `process_block` without any PoW check — here the PoW
structure is invalid (neither primary nor secondary) and yet the result is
`Orphan`, not `LowEdgebits`/`InvalidPow`: `prev_header_store` (line 97)
raises `Orphan` before `validate_pow_only` is ever reached. -/
theorem pipe_orphan_missing_prev_ignores_pow :
    orphanHeader.pow.is_primary = false ∧ orphanHeader.pow.is_secondary = false ∧
    lookupHeader stateOne orphanHeader.prev_hash = none ∧
    process_block { header := orphanHeader } envBase stateOne = .err .Orphan stateOne := by
  decide

/-- C4 (amended): two distinct unknown-parent paths exist in
`process_block`. If the previous header itself is missing, the call returns
`Orphan` immediately, with no PoW validation at all. If the previous header
is known but its block body is not stored and the block is not the next
block, `validate_pow_only` runs first: a malformed PoW yields
`LowEdgebits`, a failing verifier yields `InvalidPow`, and only a valid
PoW yields `Orphan`. -/
theorem pipe_orphan_paths (b : Block) (env : Env) (s : ChainState) (head0 hh0 : Tip)
    (hk : check_known b.header s = .ok ())
    (hhd : Batch.head s = .ok head0)
    (hhh : Batch.header_head s = .ok hh0) :
    (lookupHeader s b.header.prev_hash = none →
      process_block b env s = .err .Orphan s) ∧
    (∀ prev, lookupHeader s b.header.prev_hash = some prev →
      b.header.prev_hash ≠ head0.last_block_h →
      Batch.block_exists s prev.hash = false →
      process_block b env s =
        (if b.header.pow.is_primary = false ∧ b.header.pow.is_secondary = false then
          .err .LowEdgebits s
        else if env.pow_verifier b.header = false then .err .InvalidPow s
        else .err .Orphan s)) := by
  constructor
  · intro hmiss
    have hp : prev_header_store b.header s = .error .Orphan := by
      unfold prev_header_store Batch.get_previous_header Batch.get_block_header
      rw [hmiss]
    unfold process_block
    rw [hk]
    dsimp only
    rw [hhd]
    dsimp only
    rw [hhh]
    dsimp only
    rw [hp]
  · intro prev hlk hne hnb
    have hp : prev_header_store b.header s = .ok prev := by
      unfold prev_header_store Batch.get_previous_header Batch.get_block_header
      rw [hlk]
    unfold process_block
    rw [hk]
    dsimp only
    rw [hhd]
    dsimp only
    rw [hhh]
    dsimp only
    rw [hp]
    dsimp only
    rw [if_pos ⟨hne, hnb⟩]
    by_cases h1 : b.header.pow.is_primary = false ∧ b.header.pow.is_secondary = false
    · have hv : validate_pow_only b.header env = .error .LowEdgebits := by
        unfold validate_pow_only
        simp [h1.1, h1.2]
      rw [hv, if_pos h1]
    · have hstruct : (!b.header.pow.is_primary && !b.header.pow.is_secondary) = false := by
        cases hp1 : b.header.pow.is_primary <;> cases hp2 : b.header.pow.is_secondary <;>
          simp_all
      rw [if_neg h1]
      by_cases h2 : env.pow_verifier b.header = false
      · have hv : validate_pow_only b.header env = .error .InvalidPow := by
          unfold validate_pow_only
          rw [hstruct]
          simp [h2]
        rw [hv, if_pos h2]
      · have hverif : env.pow_verifier b.header = true := by
          cases hx : env.pow_verifier b.header
          · exact absurd hx h2
          · rfl
        have hv : validate_pow_only b.header env = .ok () := by
          unfold validate_pow_only
          rw [hstruct]
          simp [hverif]
        rw [hv, if_neg h2]

theorem pipe_orphan_paths_witness :
    process_block { header := orphanHeader } envBase stateOrphanPath =
      (if orphanHeader.pow.is_primary = false ∧ orphanHeader.pow.is_secondary = false then
        .err .LowEdgebits stateOrphanPath
      else if envBase.pow_verifier orphanHeader = false then
        .err .InvalidPow stateOrphanPath
      else .err .Orphan stateOrphanPath) :=
  (pipe_orphan_paths { header := orphanHeader } envBase stateOrphanPath
      (Tip.from_header genesisHeader) (Tip.from_header genesisHeader)
      (by decide) (by decide) (by decide)).2
    prevKnownHeader (by decide) (by decide) (by decide)

/-! ## C5 — the return value of a successful `process_block` -/

/-- C5: a successful `process_block` returns `Some(Tip::from_header(b.header))`
exactly when the block's total difficulty strictly exceeds that of the head
read at the start of the call (and then the stored head becomes that tip);
otherwise it returns `None` and the head is unchanged. -/
theorem pipe_ok_returns_tip_iff_more_work (b : Block) (env : Env) (s : ChainState)
    (r : Option Tip) (s1 : ChainState) (t0 : Tip)
    (h : process_block b env s = .ok r s1) (hh : s.head = some t0) :
    (t0.total_difficulty < b.header.total_difficulty →
      r = some (Tip.from_header b.header) ∧ s1.head = some (Tip.from_header b.header)) ∧
    (¬ t0.total_difficulty < b.header.total_difficulty →
      r = none ∧ s1.head = s.head) := by
  obtain ⟨head0, hh0, hblocks, hcase⟩ := process_block_ok_shape b env s r s1 h
  rw [hh] at hh0
  injection hh0 with hh0
  subst hh0
  rcases hcase with ⟨hmw, hr2, hshead⟩ | ⟨hmw, hr2, hshead⟩
  · have hlt : t0.total_difficulty < b.header.total_difficulty := by
      simpa [has_more_work, decide_eq_true_eq] using hmw
    exact ⟨fun _ => ⟨hr2, hshead⟩, fun hn => absurd hlt hn⟩
  · have hnlt : ¬ t0.total_difficulty < b.header.total_difficulty := by
      simpa [has_more_work, decide_eq_false_iff_not] using hmw
    exact ⟨fun hlt => absurd hlt hnlt, fun _ => ⟨hr2, hshead⟩⟩

theorem pipe_ok_returns_tip_iff_more_work_witness :
    ((Tip.from_header genesisHeader).total_difficulty <
        blockOne.header.total_difficulty →
      some (Tip.from_header blockOneHeader) = some (Tip.from_header blockOne.header) ∧
      (process_block blockOne envBase stateOne).state.head =
        some (Tip.from_header blockOne.header)) ∧
    (¬ (Tip.from_header genesisHeader).total_difficulty <
        blockOne.header.total_difficulty →
      some (Tip.from_header blockOneHeader) = none ∧
      (process_block blockOne envBase stateOne).state.head = stateOne.head) :=
  pipe_ok_returns_tip_iff_more_work blockOne envBase stateOne
    (some (Tip.from_header blockOneHeader))
    (process_block blockOne envBase stateOne).state
    (Tip.from_header genesisHeader) (by decide) (by decide)

/-! ## C6 — monotonicity of the head's total difficulty -/

/-- Iterate `process_block` over a list of blocks, keeping the state each
call leaves behind (accepted or not). -/
def processBlocks (env : Env) : List Block → ChainState → ChainState
  | [], s => s
  | b :: rest, s => processBlocks env rest (process_block b env s).state

/-- The total difficulty of the stored head tip (0 when none is stored,
in which case no call can ever have succeeded). -/
def headDifficulty (s : ChainState) : Nat :=
  (s.head.map Tip.total_difficulty).getD 0

/-- One `process_block` call either leaves `head` unchanged (every error
path, and a success that does not increase work) or replaces it with the
new block's tip, which carries strictly more work than the previous head. -/
theorem process_block_head_monotone (b : Block) (env : Env) (s : ChainState) :
    (process_block b env s).state.head = s.head ∨
    ∃ t0, s.head = some t0 ∧
      (process_block b env s).state.head = some (Tip.from_header b.header) ∧
      t0.total_difficulty < b.header.total_difficulty := by
  cases hr : process_block b env s with
  | err e s1 =>
    left
    have h0 := process_block_err_bodySame b env s e s1 hr
    simpa [hr, PRes.state] using h0.2.2.1
  | ok r s1 =>
    obtain ⟨head0, hh0, hblocks, hcase⟩ := process_block_ok_shape b env s r s1 hr
    rcases hcase with ⟨hmw, hr2, hshead⟩ | ⟨hmw, hr2, hshead⟩
    · right
      refine ⟨head0, hh0, by simp [hr, PRes.state, hshead], ?_⟩
      simpa [has_more_work, decide_eq_true_eq] using hmw
    · left
      simp [hr, PRes.state, hshead]

theorem headDifficulty_step (b : Block) (env : Env) (s : ChainState) :
    headDifficulty s ≤ headDifficulty (process_block b env s).state := by
  rcases process_block_head_monotone b env s with h | ⟨t0, h1, h2, h3⟩
  · unfold headDifficulty
    rw [h]
  · unfold headDifficulty
    rw [h1, h2]
    simp only [Option.map_some, Option.getD_some, Tip.from_header]
    exact Nat.le_of_lt h3

/-- C6: across any sequence of `process_block` calls the total difficulty
of the stored head never decreases, and a single call only ever replaces
the head by the new block's tip of strictly greater total difficulty,
leaving it unchanged otherwise. -/
theorem pipe_head_difficulty_monotone (env : Env) :
    (∀ (bs : List Block) (s : ChainState),
      headDifficulty s ≤ headDifficulty (processBlocks env bs s)) ∧
    (∀ (b : Block) (s : ChainState),
      (process_block b env s).state.head = s.head ∨
      ∃ t0, s.head = some t0 ∧
        (process_block b env s).state.head = some (Tip.from_header b.header) ∧
        t0.total_difficulty < b.header.total_difficulty) := by
  constructor
  · intro bs
    induction bs with
    | nil => intro s; exact Nat.le_refl _
    | cons b rest ih =>
      intro s
      calc headDifficulty s ≤ headDifficulty (process_block b env s).state :=
            headDifficulty_step b env s
        _ ≤ _ := ih _
  · intro b s
    exact process_block_head_monotone b env s

/-! ## C7 — resubmitting a just-accepted block -/

/-- When the known-check fails, `process_block` reports its error directly,
before any read or write beyond the check itself. -/
theorem process_block_check_known_err (b : Block) (env : Env) (s : ChainState)
    (e : ErrorKind) (h : check_known b.header s = .error e) :
    process_block b env s = .err e s := by
  unfold process_block
  rw [h]

/-- Tip of a 53-block chain (heights 0..52, hashes 100..152). -/
def deepTipHeader : BlockHeader :=
  { hash := 152, version := 1, height := 52, prev_hash := 151, timestamp := 520,
    total_difficulty := 60, total_kernel_offset := 0, pow := powPrimary }

/-- A valid side-fork block at height 1 under the deep chain: its parent is
genesis, so it is accepted (stored, no head update) though 51 blocks behind
the head. -/
def deepBlockHeader : BlockHeader :=
  { hash := 7, version := 1, height := 1, prev_hash := 100, timestamp := 3,
    total_difficulty := 2, total_kernel_offset := 0, pow := powPrimary }

def deepState : ChainState :=
  { headers := [genesisHeader, deepTipHeader],
    blocks := [100],
    block_sums := [(100, { utxo_sum := 0, kernel_sum := 0 })],
    head := some (Tip.from_header deepTipHeader),
    header_head := some (Tip.from_header deepTipHeader),
    tail := some (Tip.from_header genesisHeader),
    mmr := (List.range 53).map (fun i => 100 + i),
    header_mmr := (List.range 53).map (fun i => 100 + i) }

/-- C7 counterexample: `process_block` accepts the deep side-fork block
(no error), yet resubmitting it yields `OldBlock`, not `Unfit`: the stored
block sits more than 50 blocks below the head, so `check_known_store`
(`pipe.rs` 284-288) flags it as abusive instead of merely redundant. -/
theorem pipe_resubmit_deep_fork_old_block :
    (process_block { header := deepBlockHeader } envBase deepState).errKind = none ∧
    process_block { header := deepBlockHeader } envBase
        ((process_block { header := deepBlockHeader } envBase deepState).state) =
      .err .OldBlock
        ((process_block { header := deepBlockHeader } envBase deepState).state) := by
  decide

/-- C7 (amended): after a successful `process_block`, resubmitting the same
block fails with no state change; the error is `Unfit` when the block is
the head, its parent, or stored within 50 blocks of the head, and
`OldBlock` when it is stored more than 50 blocks behind the head. -/
theorem pipe_resubmit_accepted_block (b : Block) (env : Env) (s : ChainState)
    (r : Option Tip) (s1 : ChainState) (h : process_block b env s = .ok r s1) :
    ∃ t1, s1.head = some t1 ∧
      ((∃ m, process_block b env s1 = .err (.Unfit m) s1) ∨
        (b.header.height < t1.height - 50 ∧
          process_block b env s1 = .err .OldBlock s1)) := by
  obtain ⟨head0, hh0, hblocks, hcase⟩ := process_block_ok_shape b env s r s1 h
  have hexists : Batch.block_exists s1 b.header.hash = true := by
    simp [Batch.block_exists, hblocks]
  have ht1 : ∃ t1, s1.head = some t1 := by
    rcases hcase with ⟨_, _, hshead⟩ | ⟨_, _, hshead⟩
    · exact ⟨_, hshead⟩
    · rw [hshead, hh0]; exact ⟨_, rfl⟩
  obtain ⟨t1, ht1⟩ := ht1
  have hbh : Batch.head s1 = .ok t1 := by
    unfold Batch.head
    rw [ht1]
  refine ⟨t1, ht1, ?_⟩
  by_cases hhead : b.header.hash = t1.last_block_h ∨ b.header.hash = t1.prev_block_h
  · left
    refine ⟨"already known in head", ?_⟩
    apply process_block_check_known_err
    unfold check_known check_known_head
    rw [hbh]
    dsimp only
    rw [if_pos hhead]
  · have hck0 : check_known_head b.header s1 = .ok () := by
      unfold check_known_head
      rw [hbh]
      dsimp only
      rw [if_neg hhead]
    by_cases hold : b.header.height < t1.height - 50
    · right
      refine ⟨hold, ?_⟩
      apply process_block_check_known_err
      unfold check_known
      rw [hck0]
      dsimp only
      unfold check_known_store
      simp only [hexists, if_true]
      rw [hbh]
      dsimp only
      rw [if_pos hold]
    · left
      refine ⟨"already known in store", ?_⟩
      apply process_block_check_known_err
      unfold check_known
      rw [hck0]
      dsimp only
      unfold check_known_store
      simp only [hexists, if_true]
      rw [hbh]
      dsimp only
      rw [if_neg hold]

theorem pipe_resubmit_accepted_block_witness :
    ∃ t1, (process_block blockOne envBase stateOne).state.head = some t1 ∧
      ((∃ m, process_block blockOne envBase
            ((process_block blockOne envBase stateOne).state) =
          .err (.Unfit m) ((process_block blockOne envBase stateOne).state)) ∨
        (blockOne.header.height < t1.height - 50 ∧
          process_block blockOne envBase
              ((process_block blockOne envBase stateOne).state) =
            .err .OldBlock ((process_block blockOne envBase stateOne).state))) :=
  pipe_resubmit_accepted_block blockOne envBase stateOne
    (some (Tip.from_header blockOneHeader))
    (process_block blockOne envBase stateOne).state (by decide)

/-! ## C8 — fork points and reapplication order in `rewind_and_apply_fork` -/

/-- Invariant I1 restricted to what the walks traverse: every
previous-header lookup that succeeds from `start` or from a stored header
lands one height lower. Decidable, so concrete stores can discharge it. -/
def prevLinksOk (s : ChainState) (start : BlockHeader) : Bool :=
  (start :: s.headers).all fun c =>
    match lookupHeader s c.prev_hash with
    | some p => p.height + 1 == c.height
    | none => true

theorem lookupHeader_mem {s : ChainState} {h : Nat} {hd : BlockHeader}
    (hl : lookupHeader s h = some hd) : hd ∈ s.headers :=
  List.mem_of_find?_eq_some hl

theorem get_previous_ok_lookup {s : ChainState} {c p : BlockHeader}
    (h : Batch.get_previous_header s c = .ok p) :
    lookupHeader s c.prev_hash = some p := by
  unfold Batch.get_previous_header Batch.get_block_header at h
  cases hl : lookupHeader s c.prev_hash with
  | none => rw [hl] at h; exact Except.noConfusion h
  | some q => rw [hl] at h; cases h; rfl

theorem prevLinksOk_step {s : ChainState} {start c p : BlockHeader}
    (hlinks : prevLinksOk s start = true)
    (hc : c = start ∨ c ∈ s.headers)
    (hl : lookupHeader s c.prev_hash = some p) : p.height + 1 = c.height := by
  unfold prevLinksOk at hlinks
  rw [List.all_eq_true] at hlinks
  have hm : c ∈ start :: s.headers := by
    rcases hc with h | h
    · rw [h]; exact List.mem_cons_self _ _
    · exact List.mem_cons_of_mem _ h
  have h2 := hlinks c hm
  rw [hl] at h2
  simpa using h2

/-- The fork-point walk of `rewind_and_apply_fork`: whenever it returns, the
chosen fork point is on the current chain or at height 0, its height is at
most the header-chain fork height, and the collected hashes are those of a
height-strictly-increasing chain of headers (earliest first, since the
source reverses the backward collection). -/
theorem fork_point_walk_spec (s : ChainState) (start : BlockHeader) (hffh : Nat)
    (hlinks : prevLinksOk s start = true) (fuel : Nat) :
    ∀ (current : BlockHeader) (ghost : List BlockHeader),
      (current = start ∨ current ∈ s.headers) →
      List.Pairwise (fun a b => b.height < a.height) ghost →
      (∀ x ∈ ghost, current.height < x.height) →
      ∀ (forked : BlockHeader) (hashes : List Nat),
        fork_point_walk s hffh fuel current (ghost.map BlockHeader.hash) =
          .ok (forked, hashes) →
        (forked.height = 0 ∨ is_on_current_chain s forked = true) ∧
        forked.height ≤ hffh ∧
        ∃ hds : List BlockHeader, hashes = hds.map BlockHeader.hash ∧
          List.Pairwise (fun a b => a.height < b.height) hds := by
  induction fuel with
  | zero =>
    intro current ghost hcur hdec hlt forked hashes hw
    unfold fork_point_walk at hw
    split at hw
    · exact Except.noConfusion hw
    · next hcond =>
      cases hw
      refine ⟨?_, ?_, ghost.reverse, by rw [List.map_reverse], ?_⟩
      · by_cases h0 : current.height = 0
        · exact Or.inl h0
        · refine Or.inr ?_
          cases hx : is_on_current_chain s current
          · exact absurd ⟨Nat.pos_of_ne_zero h0, Or.inl hx⟩ hcond
          · rfl
      · by_cases h0 : current.height = 0
        · rw [h0]; exact Nat.zero_le _
        · exact Nat.le_of_not_lt
            (fun hl2 => hcond ⟨Nat.pos_of_ne_zero h0, Or.inr hl2⟩)
      · exact List.pairwise_reverse.mpr hdec
  | succ fuel ih =>
    intro current ghost hcur hdec hlt forked hashes hw
    unfold fork_point_walk at hw
    split at hw
    · next hcond =>
      dsimp only at hw
      cases hprev : Batch.get_previous_header s current with
      | error e => rw [hprev] at hw; exact Except.noConfusion hw
      | ok prev =>
        rw [hprev] at hw
        have hlk := get_previous_ok_lookup hprev
        have hmem : prev ∈ s.headers := lookupHeader_mem hlk
        have hph : prev.height + 1 = current.height := prevLinksOk_step hlinks hcur hlk
        have hplt : prev.height < current.height := by omega
        have hw2 : fork_point_walk s hffh fuel prev
            ((ghost ++ [current]).map BlockHeader.hash) = .ok (forked, hashes) := by
          rw [List.map_append]
          simpa using hw
        refine ih prev (ghost ++ [current]) (Or.inr hmem) ?_ ?_ forked hashes hw2
        · rw [List.pairwise_append]
          refine ⟨hdec, List.pairwise_singleton _ _, ?_⟩
          intro a ha b hb
          rw [List.mem_singleton] at hb
          rw [hb]
          exact hlt a ha
        · intro x hx
          rw [List.mem_append, List.mem_singleton] at hx
          rcases hx with hx | hx
          · exact Nat.lt_trans hplt (hlt x hx)
          · rw [hx]; exact hplt
    · next hcond =>
      cases hw
      refine ⟨?_, ?_, ghost.reverse, by rw [List.map_reverse], ?_⟩
      · by_cases h0 : current.height = 0
        · exact Or.inl h0
        · refine Or.inr ?_
          cases hx : is_on_current_chain s current
          · exact absurd ⟨Nat.pos_of_ne_zero h0, Or.inl hx⟩ hcond
          · rfl
      · by_cases h0 : current.height = 0
        · rw [h0]; exact Nat.zero_le _
        · exact Nat.le_of_not_lt
            (fun hl2 => hcond ⟨Nat.pos_of_ne_zero h0, Or.inr hl2⟩)
      · exact List.pairwise_reverse.mpr hdec

/-- C8: in `rewind_and_apply_fork`, once the header-chain fork point
`header_forked_header` and the pair `(forked_header, fork_hashes)` have been
computed, the fork point is on the current chain (or at height 0) with
height at most `header_forked_header.height`, and `fork_hashes` lists a
height-strictly-increasing chain of headers — the earliest-to-latest order
in which `apply_fork_blocks` then reapplies them. The store hypothesis is
invariant I1 (each previous-header link drops exactly one height) restricted
to the headers the walk can reach. -/
theorem pipe_fork_point_spec (s : ChainState) (header start hff : BlockHeader)
    (fuel1 fuel2 : Nat) (forked : BlockHeader) (hashes : List Nat)
    (hlinks : prevLinksOk s header = true)
    (_hhw : header_head_fork_walk s fuel1 start = .ok hff)
    (hw : fork_point_walk s hff.height fuel2 header [] = .ok (forked, hashes)) :
    (forked.height = 0 ∨ is_on_current_chain s forked = true) ∧
    forked.height ≤ hff.height ∧
    ∃ hds : List BlockHeader, hashes = hds.map BlockHeader.hash ∧
      List.Pairwise (fun a b => a.height < b.height) hds :=
  fork_point_walk_spec s header hff.height hlinks fuel2 header []
    (Or.inl rfl) List.Pairwise.nil (fun x hx => absurd hx (List.not_mem_nil x))
    forked hashes (by simpa using hw)

/-- A two-branch fork over the genesis: the A-branch is the current chain
(in the MMR), the B-branch is stored but off-chain. -/
def forkA1 : BlockHeader :=
  { hash := 111, version := 1, height := 1, prev_hash := 100, timestamp := 10,
    total_difficulty := 2, total_kernel_offset := 0, pow := powPrimary }

def forkA2 : BlockHeader :=
  { hash := 112, version := 1, height := 2, prev_hash := 111, timestamp := 20,
    total_difficulty := 3, total_kernel_offset := 0, pow := powPrimary }

def forkB1 : BlockHeader :=
  { hash := 201, version := 1, height := 1, prev_hash := 100, timestamp := 11,
    total_difficulty := 2, total_kernel_offset := 0, pow := powPrimary }

def forkB2 : BlockHeader :=
  { hash := 202, version := 1, height := 2, prev_hash := 201, timestamp := 21,
    total_difficulty := 4, total_kernel_offset := 0, pow := powPrimary }

def forkState : ChainState :=
  { headers := [genesisHeader, forkA1, forkA2, forkB1, forkB2],
    blocks := [100, 111, 112, 201, 202],
    block_sums := [(100, { utxo_sum := 0, kernel_sum := 0 })],
    head := some (Tip.from_header forkA2),
    header_head := some (Tip.from_header forkB2),
    tail := some (Tip.from_header genesisHeader),
    mmr := [100, 111, 112], header_mmr := [100, 201, 202] }

theorem pipe_fork_point_spec_witness :
    (let p := (genesisHeader, [201, 202]);
      (p.1.height = 0 ∨ is_on_current_chain forkState p.1 = true) ∧
      p.1.height ≤ genesisHeader.height ∧
      ∃ hds : List BlockHeader, p.2 = hds.map BlockHeader.hash ∧
        List.Pairwise (fun a b => a.height < b.height) hds) :=
  pipe_fork_point_spec forkState forkB2 forkB2 genesisHeader 3 3
    genesisHeader [201, 202] (by decide) (by decide) (by decide)

/-! ## C10 — the known-check inside `process_block_header` -/

/-- C10: once the previous header is found, any failure of `check_known` —
`Unfit`, `OldBlock`, or a store failure surfacing as `StoreErr` — makes
`process_block_header` return `Ok(())` immediately, with the state
untouched; no error kind produced by `check_known` ever escapes. -/
theorem pipe_header_known_check_swallowed (header : BlockHeader) (env : Env)
    (s : ChainState) (prev : BlockHeader) (e : ErrorKind)
    (hprev : Batch.get_previous_header s header = .ok prev)
    (hk : check_known header s = .error e) :
    process_block_header header env s = .ok () s := by
  unfold process_block_header
  rw [hprev]
  dsimp only
  rw [hk]

theorem pipe_header_known_check_swallowed_witness :
    process_block_header blockOneHeader envBase
        ((process_block blockOne envBase stateOne).state) =
      .ok () ((process_block blockOne envBase stateOne).state) :=
  pipe_header_known_check_swallowed blockOneHeader envBase
    ((process_block blockOne envBase stateOne).state) genesisHeader
    (.Unfit "already known in head") (by decide) (by decide)

end Kepler

namespace KeplerApi

/-! ## C9 — HTTP status mapping of GET /v1/blocks/<x> -/

/-- A chain whose only block is the genesis at height 0, hash 100. -/
def apiChainOne : ApiChain :=
  { headers_by_height := [(0, 100)], blocks := [100], printable_fails := [] }

/-- C9 counterexample: the input `"5"` is a well-formed height that names no
block — a not-found error (`parse_input` classifies it as `NotFound`) — yet
`BlockHandler::get` answers 400, not 404: the handler wraps every
`parse_input` failure, whatever its kind, in a `BAD_REQUEST` response
(`blocks_api.rs` 195-203). -/
theorem api_missing_height_answers_400 :
    BlockHandler.parse_input apiChainOne "5" = .error .NotFound ∧
    BlockHandler.get apiChainOne "5" none = 400 ∧
    BlockHandler.get apiChainOne "5" none ≠ 404 := by
  decide

/-- C9 (amended): for GET /v1/blocks/<x>, every `parse_input` failure —
argument errors, but also the `NotFound` of a nonexistent height — yields
400; once the input resolves to a hash, a missing block yields 404, a
printable-conversion failure yields 500, and a stored block yields 200. -/
theorem api_blocks_status_mapping (c : ApiChain) (input : String) :
    (∀ e, BlockHandler.parse_input c input = .error e →
      BlockHandler.get c input none = 400) ∧
    (∀ h, BlockHandler.parse_input c input = .ok h →
      BlockHandler.get c input none =
        (if c.blocks.contains h then
          (if c.printable_fails.contains h then 500 else 200)
        else 404)) := by
  constructor
  · intro e he
    unfold BlockHandler.get
    rw [he]
  · intro h hh
    unfold BlockHandler.get
    rw [hh]
    dsimp only
    by_cases hb : h ∈ c.blocks
    · by_cases hp : h ∈ c.printable_fails
      · simp [BlockHandler.get_block, statusOf, hb, hp]
      · simp [BlockHandler.get_block, statusOf, hb, hp]
    · simp [BlockHandler.get_block, statusOf, hb]

theorem api_blocks_status_mapping_witness :
    BlockHandler.get apiChainOne "5" none = 400 :=
  (api_blocks_status_mapping apiChainOne "5").1 .NotFound (by decide)

end KeplerApi
